import Mathlib

/-!
Verification development for the video-summary task orchestration core.

Shallow embedding of:
- the Task Store (src/frontend/src/stores/queue.ts),
- the orchestration bridge handlers of the ProgressPanel component
  (src/unnamed/part_010: handleTaskUpdate, handleProgress,
  handleTranscriptReady, handleStartProcessing),
- the stream reassembler MiniMaxService.streamSummary (src/unnamed/part_002),
- the WebSocketService reconnection logic (src/unnamed/part_002).

JavaScript runtime conventions are made explicit: `a || b` on strings treats
the empty string as falsy (strOr), object spread `{ ...task, ...updates }`
overwrites a field whenever the key is present in `updates`, even when its
value is `undefined` (TaskUpdate fields of type Option (Option _)), and
`String.prototype.trim` is modelled by jsTrim on the whitespace characters
that occur in this code base.
-/

namespace VideoSummary

/-- JavaScript string `a || b`: the empty string is falsy. -/
def strOr (a : Option String) (b : String) : String :=
  match a with
  | some s => if s = "" then b else s
  | none => b

/-- Whitespace recognised by the jsTrim model of String.prototype.trim. -/
def isWs (c : Char) : Bool :=
  c = ' ' || c = '\n' || c = '\t' || c = '\r'

/-- Drop leading and trailing whitespace from a character list. -/
def trimChars (l : List Char) : List Char :=
  ((l.dropWhile isWs).reverse.dropWhile isWs).reverse

/-- Model of JavaScript String.prototype.trim as used by the code. -/
def jsTrim (s : String) : String :=
  String.mk (trimChars s.data)

/-- Task lifecycle states (type TaskStatus in stores/queue.ts). -/
inductive TaskStatus
  | pending
  | downloading
  | processing
  | completed
  | failed
  deriving DecidableEq, Repr

/-- One task record (interface Task in stores/queue.ts).  The TypeScript
interface does not declare outputPath and summary, but updateTask is called
with those keys by the ProgressPanel handlers and at runtime the spread
merge stores them on the record, so the embedding carries them as optional
fields.  createdAt is an abstract timestamp. -/
structure Task where
  id : String
  taskType : String
  source : String
  filename : Option String := none
  title : Option String := none
  status : TaskStatus
  progress : Nat
  message : String
  createdAt : Nat
  error : Option String := none
  outputPath : Option String := none
  summary : Option String := none
  deriving DecidableEq, Repr

/-- A partial update object as passed to updateTask.  An outer `none` means
the key is absent from the object (the spread keeps the old value); for the
fields that the handlers sometimes set to `undefined` explicitly, the inner
Option records that value (the spread then erases the old value). -/
structure TaskUpdate where
  status : Option TaskStatus := none
  progress : Option Nat := none
  message : Option String := none
  error : Option (Option String) := none
  outputPath : Option (Option String) := none
  summary : Option (Option String) := none
  deriving DecidableEq, Repr

/-- The spread merge `{ ...task, ...updates }`. -/
def applyUpdate (t : Task) (u : TaskUpdate) : Task :=
  { t with
    status := u.status.getD t.status
    progress := u.progress.getD t.progress
    message := u.message.getD t.message
    error := u.error.getD t.error
    outputPath := u.outputPath.getD t.outputPath
    summary := u.summary.getD t.summary }

/-- updateTask from stores/queue.ts: map over the list, merging into the
record whose id matches; a total function (it never throws). -/
def updateTask (id : String) (u : TaskUpdate) (tasks : List Task) : List Task :=
  tasks.map (fun t => if t.id = id then applyUpdate t u else t)

/-- Input of addTask (the Omit<Task, ...> argument). -/
structure AddTaskInput where
  taskType : String
  source : String
  filename : Option String := none
  title : Option String := none
  deriving DecidableEq, Repr

/-- addTask from stores/queue.ts.  The generated id (crypto.randomUUID())
and the creation time (new Date()) are passed explicitly.  There is no
validation and no failure path: the new record is always appended. -/
def addTask (input : AddTaskInput) (id : String) (createdAt : Nat)
    (tasks : List Task) : Task × List Task :=
  let newTask : Task :=
    { id := id
      taskType := input.taskType
      source := input.source
      filename := input.filename
      title := input.title
      status := TaskStatus.pending
      progress := 0
      message := "等待处理"
      createdAt := createdAt }
  (newTask, tasks ++ [newTask])

/-- removeTask from stores/queue.ts. -/
def removeTask (id : String) (tasks : List Task) : List Task :=
  tasks.filter (fun t => t.id ≠ id)

/-- An inbound channel event (type WSMessage in the ProgressPanel). -/
structure WSMessage where
  mtype : Option String := none
  taskId : Option String := none
  task_id : Option String := none
  status : Option TaskStatus := none
  progress : Option Nat := none
  message : Option String := none
  outputPath : Option String := none
  output_path : Option String := none
  transcript : Option String := none
  templatePrompt : Option String := none
  deriving DecidableEq, Repr

/-- getTaskId: `data.taskId || data.task_id || ''`. -/
def getTaskId (data : WSMessage) : String :=
  strOr data.taskId (strOr data.task_id "")

/-- getOutputPath: `data.outputPath || data.output_path`. -/
def getOutputPath (data : WSMessage) : Option String :=
  match data.outputPath with
  | some s => if s = "" then data.output_path else some s
  | none => data.output_path

/-- handleTaskUpdate from the ProgressPanel: ignore events without a task
id, otherwise merge an update object whose keys are always status, progress,
message, outputPath and error, with JavaScript defaults substituted for the
absent event fields. -/
def handleTaskUpdate (data : WSMessage) (tasks : List Task) : List Task :=
  let taskId := getTaskId data
  if taskId = "" then tasks
  else
    updateTask taskId
      { status := some (data.status.getD TaskStatus.processing)
        progress := some (data.progress.getD 0)
        message := some (data.message.getD "")
        outputPath := some (getOutputPath data)
        error := some (if data.status = some TaskStatus.failed then data.message else none) }
      tasks

/-- handleProgress from the ProgressPanel: merge status/progress/message
with JavaScript defaults; the error and outputPath keys are not present in
the update object, so those fields are preserved. -/
def handleProgress (data : WSMessage) (tasks : List Task) : List Task :=
  let taskId := getTaskId data
  if taskId = "" then tasks
  else
    updateTask taskId
      { status := some (data.status.getD TaskStatus.processing)
        progress := some (data.progress.getD 0)
        message := some (data.message.getD "") }
      tasks

/-- A summarization template (stores/settings.ts). -/
structure Template where
  id : String
  name : String
  prompt : String
  deriving DecidableEq, Repr

/-- The slice of the settings store read by handleStartProcessing. -/
structure SettingsSlice where
  templates : List Template
  selectedTemplateId : String
  deriving DecidableEq, Repr

/-- One element of the start_processing batch payload. -/
structure StartTaskPayload where
  id : String
  taskType : String
  source : String
  title : Option String
  templatePrompt : String
  deriving DecidableEq, Repr

/-- Observable outcome of handleStartProcessing: one of the two toast
warnings, or a single channel send carrying the batch. -/
inductive StartAction
  | warnNoTasks
  | warnNoTemplate
  | send (payload : List StartTaskPayload)
  deriving DecidableEq, Repr

/-- handleStartProcessing from the ProgressPanel.  Note the fallback
`settings.templates.find(...) || settings.templates[0]`: when no template
matches the selected id, the first template is used instead; the warning is
raised only when this fallback also yields nothing usable
(`!selectedTemplate?.prompt`).  The function performs no store mutation in
any branch: task statuses are untouched. -/
def handleStartProcessing (tasks : List Task) (settings : SettingsSlice) : StartAction :=
  let pendingTasks := tasks.filter (fun t => t.status == TaskStatus.pending)
  if pendingTasks.isEmpty then StartAction.warnNoTasks
  else
    let sel :=
      match settings.templates.find? (fun tp => tp.id == settings.selectedTemplateId) with
      | some tp => some tp
      | none => settings.templates.head?
    match sel with
    | none => StartAction.warnNoTemplate
    | some tp =>
      if tp.prompt = "" then StartAction.warnNoTemplate
      else
        StartAction.send (pendingTasks.map (fun t =>
          { id := t.id
            taskType := t.taskType
            source := t.source
            title := t.title
            templatePrompt := tp.prompt }))

/-- State owned by the orchestration bridge: the task store plus the
transient guard set of ids currently undergoing summarization
(summarizingTaskIds in the ProgressPanel). -/
structure BridgeState where
  tasks : List Task
  summarizingTaskIds : List String
  deriving DecidableEq, Repr

/-- Outcome of the awaited summarization-plus-export sequence, abstracting
the suspension inside handleTranscriptReady. -/
inductive SummaryOutcome
  | success (summary : String)
  | failure (msg : String)
  deriving DecidableEq, Repr

/-- handleTranscriptReady from the ProgressPanel, returning the new bridge
state together with the number of streamSummary invocations performed.
The early returns are modelled exactly: missing id, id already in the guard
set, unknown task, and empty (trimmed) transcript all perform no
summarization call.  Otherwise the task id is added to the guard set, the
task moves to processing/62, streamSummary is invoked once, the success or
failure update is applied, and the `finally` block removes the id from the
guard set on every exit path, so the resulting guard set equals the
original one. -/
def handleTranscriptReady (data : WSMessage) (outcome : SummaryOutcome)
    (s : BridgeState) : BridgeState × Nat :=
  let taskId := getTaskId data
  if taskId = "" ∨ taskId ∈ s.summarizingTaskIds then (s, 0)
  else
    match s.tasks.find? (fun t => t.id == taskId) with
    | none => (s, 0)
    | some _task =>
      let transcript := jsTrim (strOr data.transcript "")
      if transcript = "" then
        ({ s with
            tasks := updateTask taskId
              { status := some TaskStatus.failed
                progress := some 0
                message := some "转录文本为空，无法生成摘要"
                error := some (some "转录文本为空，无法生成摘要") } s.tasks }, 0)
      else
        let tasks1 := updateTask taskId
          { status := some TaskStatus.processing
            progress := some 62
            message := some "准备调用 MiniMax 流式摘要..." } s.tasks
        match outcome with
        | SummaryOutcome.success summary =>
          ({ s with
              tasks := updateTask taskId
                { status := some TaskStatus.processing
                  progress := some 96
                  message := some "摘要完成，正在导出 Markdown..."
                  summary := some (some summary) } tasks1 }, 1)
        | SummaryOutcome.failure msg =>
          ({ s with
              tasks := updateTask taskId
                { status := some TaskStatus.failed
                  progress := some 0
                  message := some ("摘要失败: " ++ msg)
                  error := some (some msg) } tasks1 }, 1)

/-!
WebSocketService (src/unnamed/part_002).  The service state is modelled
together with the one piece of environment state that matters for the
reconnection contract: the close event that the browser queues when a
connected socket is closed.  `wsOpen` models `this.ws` being a live socket
whose handlers (including onclose) are attached; `reconnectTimer` models a
pending setTimeout from scheduleReconnect; `closeQueued` models a close
event dispatched to the socket but not yet delivered to its onclose
handler.  Per the WebSocket API, ws.close() always leads to the close event
firing on the socket object, and disconnect() does not detach the onclose
handler before closing.
-/

/-- Combined service plus event-loop state for the WebSocketService. -/
structure WsState where
  wsOpen : Bool
  reconnectTimer : Bool
  closeQueued : Bool
  deriving DecidableEq, Repr

/-- The state before connect is first called. -/
def wsInit : WsState := { wsOpen := false, reconnectTimer := false, closeQueued := false }

/-- connect: no-op while the socket is open, otherwise a new socket with
handlers attached. -/
def wsConnect (s : WsState) : WsState :=
  if s.wsOpen then s else { s with wsOpen := true }

/-- scheduleReconnect: if a timer is already pending, return; otherwise one
timer becomes pending. -/
def wsScheduleReconnect (s : WsState) : WsState :=
  if s.reconnectTimer then s else { s with reconnectTimer := true }

/-- Unexpected closure of an open socket: the socket closes and its onclose
handler runs scheduleReconnect. -/
def wsOnUnexpectedClose (s : WsState) : WsState :=
  if s.wsOpen then wsScheduleReconnect { s with wsOpen := false } else s

/-- disconnect: clearTimeout on any pending reconnect timer, then ws.close()
and ws = null.  Closing a live socket queues its close event; the onclose
handler stays attached to the socket object. -/
def wsDisconnect (s : WsState) : WsState :=
  let s1 := { s with reconnectTimer := false }
  if s1.wsOpen then { s1 with wsOpen := false, closeQueued := true } else s1

/-- The event loop delivers a queued close event: the onclose handler runs,
which calls scheduleReconnect. -/
def wsDeliverClose (s : WsState) : WsState :=
  if s.closeQueued then wsScheduleReconnect { s with closeQueued := false } else s

/-- The pending reconnect timer fires: the timer clears itself and connect
is called. -/
def wsTimerFire (s : WsState) : WsState :=
  if s.reconnectTimer then wsConnect { s with reconnectTimer := false } else s

/-!
MiniMaxService.streamSummary (src/unnamed/part_002): the SSE reassembly
loop.  The network transport (fetch, response status, TextDecoder) is
outside the model; `reads` is the sequence of decoded texts produced by
successive reader.read() calls.  JSON.parse on a frame payload is modelled
by a parser for the flat string-valued JSON objects of the summarization
wire format (payloads are JSON objects such as
`data: \x7b"type":"chunk","text":"..."\x7d`); any other input is a decode
failure, which the loop swallows exactly as the SyntaxError catch does.
-/

/-- The opening brace character. -/
def lbrace : Char := Char.ofNat 123

/-- The closing brace character. -/
def rbrace : Char := Char.ofNat 125

/-- Decode one JSON string escape character. -/
def parseEsc (c : Char) : Option Char :=
  if c = '"' then some '"'
  else if c = '\\' then some '\\'
  else if c = '/' then some '/'
  else if c = 'n' then some '\n'
  else if c = 't' then some '\t'
  else if c = 'r' then some '\r'
  else none

/-- Parse the body of a JSON string up to and including its closing quote,
returning the decoded characters and the rest of the input.  Raw control
characters are rejected, as JSON.parse rejects them. -/
def parseStringBody : List Char → Option (List Char × List Char)
  | [] => none
  | c :: rest =>
    if c = '"' then some ([], rest)
    else if c = '\\' then
      match rest with
      | [] => none
      | d :: rest2 =>
        match parseEsc d, parseStringBody rest2 with
        | some e, some (s, r) => some (e :: s, r)
        | _, _ => none
    else if c.toNat < 32 then none
    else
      match parseStringBody rest with
      | some (s, r) => some (c :: s, r)
      | none => none

/-- Parse a complete JSON string literal (opening quote included). -/
def parseJString : List Char → Option (List Char × List Char)
  | [] => none
  | c :: rest => if c = '"' then parseStringBody rest else none

/-- Parse a comma-separated list of `"key":"value"` members.  The fuel
argument bounds the number of members; each member consumes input, so the
input length is always sufficient fuel. -/
def parsePairsF : Nat → List Char → Option (List (String × String) × List Char)
  | 0, _ => none
  | Nat.succ fuel, l =>
    match parseJString l with
    | none => none
    | some (k, r1) =>
      match r1 with
      | [] => none
      | c1 :: r2 =>
        if c1 = ':' then
          match parseJString r2 with
          | none => none
          | some (v, r3) =>
            match r3 with
            | [] => some ([(String.mk k, String.mk v)], r3)
            | c2 :: r4 =>
              if c2 = ',' then
                match parsePairsF fuel r4 with
                | some (ps, r5) => some ((String.mk k, String.mk v) :: ps, r5)
                | none => none
              else some ([(String.mk k, String.mk v)], r3)
        else none

/-- Model of JSON.parse restricted to the frame payload alphabet: a flat
object with string keys and string values, with no surrounding whitespace
(the canonical form the summarization backend emits).  Returns the member
list; every other input is a SyntaxError. -/
def parseData (l : List Char) : Option (List (String × String)) :=
  match l with
  | [] => none
  | c :: rest =>
    if c = lbrace then
      match rest with
      | [] => none
      | d :: rest2 =>
        if d = rbrace then (if rest2 = [] then some [] else none)
        else
          match parsePairsF rest.length rest with
          | some (ps, r) =>
            match r with
            | [] => none
            | e :: r2 => if e = rbrace ∧ r2 = [] then some ps else none
          | none => none
    else none

/-- Property access on a parsed object; with duplicate keys the last
occurrence wins, as in JSON.parse. -/
def getField (ps : List (String × String)) (k : String) : Option String :=
  ps.foldl (fun acc p => if p.1 = k then some p.2 else acc) none

/-- `line.startsWith('data: ')` and `line.slice(6)` combined. -/
def stripData : List Char → Option (List Char)
  | 'd' :: 'a' :: 't' :: 'a' :: ':' :: ' ' :: rest => some rest
  | _ => none

/-- The effect one complete frame line has on the loop. -/
inductive LineEffect
  | skip
  | chunk (text : String)
  | doneF
  | errorF (message : String)
  deriving DecidableEq, Repr

/-- Processing of one extracted line: lines without the `data: ` marker are
skipped (`continue`), JSON decode failures are swallowed (`continue` in the
SyntaxError catch), a chunk with truthy text accumulates, `done` resolves,
`error` throws with `data.message || '后端摘要生成失败'`, and any other
decoded payload falls through the if/else-if chain with no effect. -/
def decodeLine (l : List Char) : LineEffect :=
  match stripData l with
  | none => LineEffect.skip
  | some jsonChars =>
    match parseData jsonChars with
    | none => LineEffect.skip
    | some ps =>
      if getField ps "type" = some "chunk" then
        match getField ps "text" with
        | some t => if t = "" then LineEffect.skip else LineEffect.chunk t
        | none => LineEffect.skip
      else if getField ps "type" = some "done" then LineEffect.doneF
      else if getField ps "type" = some "error" then
        LineEffect.errorF (strOr (getField ps "message") "后端摘要生成失败")
      else LineEffect.skip

/-- Split a buffer at every complete `\n\n`-delimited unit, scanning left to
right exactly as the `buffer.indexOf('\n\n')` / slice loop does, returning
the complete units and the trailing incomplete remainder. -/
def splitFrames : List Char → List (List Char) × List Char
  | [] => ([], [])
  | [c] => ([], [c])
  | c :: d :: rest =>
    if c = '\n' ∧ d = '\n' then
      let p := splitFrames rest
      ([] :: p.1, p.2)
    else
      let p := splitFrames (d :: rest)
      match p.1 with
      | [] => ([], c :: p.2)
      | f :: fs => ((c :: f) :: fs, p.2)

/-- Outcome of draining the complete frames currently in the buffer. -/
inductive StreamStep
  | more (buffer : List Char) (summary : String) (chunks : List String)
  | finished (summary : String) (chunks : List String)
  | failed (msg : String) (chunks : List String)
  deriving DecidableEq, Repr

/-- Drain a list of complete frame lines: accumulate chunk texts (recording
every onChunk invocation in order), stop at the first `done`, fail at the
first `error`; when all lines are drained, the remainder stays in the
buffer for the next read. -/
def processFrames : List (List Char) → List Char → String → List String → StreamStep
  | [], rem, s, c => StreamStep.more rem s c
  | f :: fs, rem, s, c =>
    match decodeLine f with
    | LineEffect.skip => processFrames fs rem s c
    | LineEffect.chunk t => processFrames fs rem (s ++ t) (c ++ [t])
    | LineEffect.doneF => StreamStep.finished s c
    | LineEffect.errorF m => StreamStep.failed m c

/-- The inner `while (buffer.includes('\n\n'))` loop: extract and process
every complete frame in the buffer. -/
def runFrames (buf : List Char) (s : String) (c : List String) : StreamStep :=
  processFrames (splitFrames buf).1 (splitFrames buf).2 s c

/-- Final result of streamSummary: the resolved summary together with the
recorded onChunk invocations, `viaDone` telling whether resolution came
from a done frame or from lenient end-of-stream completion; or a failure. -/
inductive StreamResult
  | resolved (finalText : String) (chunks : List String) (viaDone : Bool)
  | failed (msg : String) (chunks : List String)
  deriving DecidableEq, Repr

/-- The outer read loop.  When the reader reports end of stream, any
incomplete buffered tail is discarded and the lenient completion check
runs: an empty (trimmed) accumulated summary is the EmptyResponse error,
otherwise the accumulated text resolves without a done marker. -/
def streamLoop : List String → List Char → String → List String → StreamResult
  | [], _buf, s, c =>
    if jsTrim s = "" then StreamResult.failed "后端未返回摘要内容" c
    else StreamResult.resolved s c false
  | r :: rs, buf, s, c =>
    match runFrames (buf ++ r.data) s c with
    | StreamStep.more buf2 s2 c2 => streamLoop rs buf2 s2 c2
    | StreamStep.finished s2 c2 => StreamResult.resolved s2 c2 true
    | StreamStep.failed m c2 => StreamResult.failed m c2

/-- streamSummary on a sequence of network reads, starting from the empty
buffer and empty summary. -/
def streamSummary (reads : List String) : StreamResult :=
  streamLoop reads [] "" []

/-- A semantic stream frame (§3 Stream Frame of the wire format). -/
inductive Frame
  | chunk (text : String)
  | done
  | error (message : String)
  deriving DecidableEq, Repr

/-- JSON escaping of one character (the escapes the backend emits). -/
def escChar (c : Char) : List Char :=
  if c = '"' then ['\\', '"']
  else if c = '\\' then ['\\', '\\']
  else if c = '\n' then ['\\', 'n']
  else if c = '\t' then ['\\', 't']
  else if c = '\r' then ['\\', 'r']
  else [c]

/-- JSON escaping of a character list. -/
def escChars (l : List Char) : List Char :=
  (l.map escChar).flatten

/-- A character representable inside a modelled JSON string: printable, or
one of the three escaped control characters. -/
def goodChar (c : Char) : Bool :=
  32 ≤ c.toNat || c = '\n' || c = '\t' || c = '\r'

/-- All characters of the string are representable. -/
def goodString (s : String) : Bool :=
  s.data.all goodChar

/-- One `"key":"value"` JSON member followed by the rest of the object
body, with both strings escaped. -/
def jsonPair (k v rest : List Char) : List Char :=
  '"' :: (escChars k ++ '"' :: ':' :: '"' :: (escChars v ++ '"' :: rest))

/-- The line part (before the `\n\n` separator) of an encoded frame. -/
def frameLine : Frame → List Char
  | Frame.chunk t =>
    "data: ".data ++
      lbrace :: jsonPair "type".data "chunk".data (',' :: jsonPair "text".data t.data [rbrace])
  | Frame.done => "data: ".data ++ lbrace :: jsonPair "type".data "done".data [rbrace]
  | Frame.error m =>
    "data: ".data ++
      lbrace :: jsonPair "type".data "error".data (',' :: jsonPair "message".data m.data [rbrace])

/-- The full wire encoding of a frame, separator included. -/
def encodeFrame (f : Frame) : String :=
  String.mk (frameLine f ++ ['\n', '\n'])

/-- Concatenation of a list of strings (left to right). -/
def sJoin : List String → String
  | [] => ""
  | r :: rs => r ++ sJoin rs

/-! Theorems about the Task Store and the orchestration bridge. -/

/-- updateTask with an id matching no task in the store is the identity. -/
theorem updateTask_unknown (id : String) (u : TaskUpdate) (ts : List Task)
    (h : ∀ t ∈ ts, t.id ≠ id) : updateTask id u ts = ts := by
  unfold updateTask
  have h2 : ∀ t ∈ ts, (if t.id = id then applyUpdate t u else t) = t := by
    intro t ht
    simp [h t ht]
  rw [List.map_congr_left h2]
  simp

/-- Claim C10: for every sequence of channel events referencing task ids not
present in the store, updateTask leaves the store unchanged.  updateTask is
a total function of the state (it maps over the list and merges only on an
id match), which is the embedding of "never throws". -/
theorem updateTask_unknown_ids_noop (es : List (String × TaskUpdate)) (ts : List Task)
    (h : ∀ e ∈ es, ∀ t ∈ ts, t.id ≠ e.1) :
    es.foldl (fun acc e => updateTask e.1 e.2 acc) ts = ts := by
  induction es with
  | nil => rfl
  | cons e es ih =>
    have h1 : updateTask e.1 e.2 ts = ts :=
      updateTask_unknown e.1 e.2 ts (fun t ht => h e (by simp) t ht)
    have h2 : ∀ e2 ∈ es, ∀ t ∈ ts, t.id ≠ e2.1 := by
      intro e2 he2 t ht
      exact h e2 (by simp [he2]) t ht
    rw [List.foldl_cons, h1]
    exact ih h2

/-- Witness for C10 at a concrete store and event sequence. -/
theorem updateTask_unknown_ids_noop_witness :
    [("X", ({} : TaskUpdate)), ("Y", ({} : TaskUpdate))].foldl
        (fun acc e => updateTask e.1 e.2 acc)
        [{ id := "T1", taskType := "url", source := "s", status := TaskStatus.pending,
           progress := 0, message := "等待处理", createdAt := 0 }] =
      [{ id := "T1", taskType := "url", source := "s", status := TaskStatus.pending,
         progress := 0, message := "等待处理", createdAt := 0 }] :=
  updateTask_unknown_ids_noop _ _ (by decide)

/-- Claim C9 (amended): addTask never fails; for every input — the empty
source included — it creates a record with status pending and progress 0
and appends it to the store. -/
theorem addTask_always_creates (input : AddTaskInput) (id : String) (createdAt : Nat)
    (ts : List Task) :
    (addTask input id createdAt ts).1.status = TaskStatus.pending ∧
    (addTask input id createdAt ts).1.progress = 0 ∧
    (addTask input id createdAt ts).1.source = input.source ∧
    (addTask input id createdAt ts).2 = ts ++ [(addTask input id createdAt ts).1] := by
  simp [addTask]

/-- Counterexample for C9 as stated: a call with an empty source does not
fail — it creates and stores a pending record whose source is empty. -/
theorem addTask_empty_source_creates :
    (addTask { taskType := "url", source := "" } "t1" 7 []).2 =
      [{ id := "t1", taskType := "url", source := "", status := TaskStatus.pending,
         progress := 0, message := "等待处理", createdAt := 7 }] := by decide

/-- The store reached by enqueueing one remote-link task (used by the C1
counterexample). -/
def c1Store : List Task :=
  (addTask { taskType := "url", source := "https://example.com/v" } "T1" 0 []).2

/-- A task_update event carrying status completed and no output path. -/
def c1EventCompleted : WSMessage :=
  { mtype := some "task_update", taskId := some "T1", status := some TaskStatus.completed }

/-- A task_update event carrying status failed together with both a message
and an output path. -/
def c1EventFailedBoth : WSMessage :=
  { mtype := some "task_update", taskId := some "T1", status := some TaskStatus.failed,
    message := some "boom", outputPath := some "out.md" }

/-- Counterexample for C1 as stated: after a task_update with status
completed and no output path, the task is completed with outputLocation
unset (refuting status=completed ⇔ outputLocation set); after a task_update
with status failed carrying both a message and an output path, error and
outputLocation are both populated (refuting their mutual exclusion and
refuting outputLocation ⇒ completed). -/
theorem taskConsistency_counterexample :
    (handleTaskUpdate c1EventCompleted c1Store).map
        (fun t => (t.status, t.outputPath, t.error)) =
      [(TaskStatus.completed, none, none)] ∧
    (handleTaskUpdate c1EventFailedBoth c1Store).map
        (fun t => (t.status, t.outputPath, t.error)) =
      [(TaskStatus.failed, some "out.md", some "boom")] := by decide

/-- Claim C1 (amended): the only direction the merge guarantees is that a
task touched by a task_update event has error populated only if the event's
status was failed, in which case error equals the event's message field.
Tasks not referenced by the event are returned unchanged. -/
theorem handleTaskUpdate_error_only_failed (data : WSMessage) (ts : List Task) (t : Task)
    (h : t ∈ handleTaskUpdate data ts) :
    t ∈ ts ∨ (t.error.isSome → t.status = TaskStatus.failed ∧ t.error = data.message) := by
  unfold handleTaskUpdate at h
  by_cases hid : getTaskId data = ""
  · simp [hid] at h
    exact Or.inl h
  · simp only [hid, if_false, updateTask, List.mem_map] at h
    obtain ⟨t0, ht0, heq⟩ := h
    by_cases hmatch : t0.id = getTaskId data
    · right
      rw [hmatch, if_pos rfl] at heq
      subst heq
      by_cases hfail : data.status = some TaskStatus.failed
      · intro _
        simp [applyUpdate, hfail]
      · intro habs
        simp [applyUpdate, hfail] at habs
    · left
      rw [if_neg hmatch] at heq
      exact heq ▸ ht0

/-- The task produced by applying c1EventFailedBoth to the c1Store task. -/
def c1Updated : Task :=
  { id := "T1", taskType := "url", source := "https://example.com/v",
    status := TaskStatus.failed, progress := 0, message := "boom",
    createdAt := 0, error := some "boom", outputPath := some "out.md" }

/-- Witness for the amended C1 at a concrete failed-status event. -/
theorem handleTaskUpdate_error_only_failed_witness :
    c1Updated ∈ c1Store ∨
    (c1Updated.error.isSome → c1Updated.status = TaskStatus.failed ∧
      c1Updated.error = c1EventFailedBoth.message) :=
  handleTaskUpdate_error_only_failed c1EventFailedBoth c1Store c1Updated (by decide)

/-- A task mid-processing, used by the C5 counterexample. -/
def c5Task : Task :=
  { id := "T1", taskType := "url", source := "https://example.com/v",
    status := TaskStatus.downloading, progress := 50, message := "halfway",
    createdAt := 0, outputPath := some "old.md" }

/-- A task_update event carrying only a task id and a status. -/
def c5Event : WSMessage :=
  { mtype := some "task_update", taskId := some "T1",
    status := some TaskStatus.processing }

/-- Counterexample for C5 as stated: an event carrying only status
processing erases fields it does not mention — progress 50 becomes 0,
message "halfway" becomes empty, and outputPath is cleared — none of which
the processing transition requires. -/
theorem merge_erases_absent_fields_counterexample :
    (handleTaskUpdate c5Event [c5Task]).map
        (fun t => (t.progress, t.message, t.outputPath)) = [(0, "", none)] ∧
    (c5Task.progress, c5Task.message, c5Task.outputPath) = (50, "halfway", some "old.md") := by
  decide

/-- Claim C5 (amended): the merge preserves exactly the fields absent from
the handler's update object — id, kind, source, filename, title, createdAt
(and summary) always survive a task_update merge, and progress events
additionally preserve error and outputLocation — while status, progress and
message are overwritten with defaults when missing from the event, and
task_update overwrites outputLocation and error unconditionally. -/
theorem merge_preserves_fields_absent_from_update (data : WSMessage) (ts : List Task)
    (t : Task) :
    (t ∈ handleTaskUpdate data ts → ∃ t0 ∈ ts, t.id = t0.id ∧ t.taskType = t0.taskType ∧
      t.source = t0.source ∧ t.filename = t0.filename ∧ t.title = t0.title ∧
      t.createdAt = t0.createdAt ∧ t.summary = t0.summary) ∧
    (t ∈ handleProgress data ts → ∃ t0 ∈ ts, t.id = t0.id ∧ t.taskType = t0.taskType ∧
      t.source = t0.source ∧ t.filename = t0.filename ∧ t.title = t0.title ∧
      t.createdAt = t0.createdAt ∧ t.summary = t0.summary ∧
      t.error = t0.error ∧ t.outputPath = t0.outputPath) := by
  constructor
  · intro h
    unfold handleTaskUpdate at h
    by_cases hid : getTaskId data = ""
    · simp [hid] at h
      exact ⟨t, h, by simp⟩
    · simp only [hid, if_false, updateTask, List.mem_map] at h
      obtain ⟨t0, ht0, heq⟩ := h
      refine ⟨t0, ht0, ?_⟩
      by_cases hmatch : t0.id = getTaskId data
      · rw [hmatch, if_pos rfl] at heq
        subst heq
        simp [applyUpdate]
      · rw [if_neg hmatch] at heq
        simp [heq.symm]
  · intro h
    unfold handleProgress at h
    by_cases hid : getTaskId data = ""
    · simp [hid] at h
      exact ⟨t, h, by simp⟩
    · simp only [hid, if_false, updateTask, List.mem_map] at h
      obtain ⟨t0, ht0, heq⟩ := h
      refine ⟨t0, ht0, ?_⟩
      by_cases hmatch : t0.id = getTaskId data
      · rw [hmatch, if_pos rfl] at heq
        subst heq
        simp [applyUpdate]
      · rw [if_neg hmatch] at heq
        simp [heq.symm]

/-- The task c5Task after the c5Event merge. -/
def c5Updated : Task :=
  { c5Task with
    status := TaskStatus.processing
    progress := 0
    message := ""
    outputPath := none }

/-- Witness for the amended C5 at a concrete event and store. -/
theorem merge_preserves_fields_witness :
    c5Updated ∈ handleTaskUpdate c5Event [c5Task] ∧
    c5Updated.source = c5Task.source ∧ c5Updated.createdAt = c5Task.createdAt := by
  refine ⟨by decide, ?_, ?_⟩
  · obtain ⟨t0, ht0, h⟩ :=
      (merge_preserves_fields_absent_from_update c5Event [c5Task] c5Updated).1 (by decide)
    rw [List.mem_singleton] at ht0
    rw [ht0] at h
    exact h.2.2.1
  · obtain ⟨t0, ht0, h⟩ :=
      (merge_preserves_fields_absent_from_update c5Event [c5Task] c5Updated).1 (by decide)
    rw [List.mem_singleton] at ht0
    rw [ht0] at h
    exact h.2.2.2.2.2.1

/-- Claim C2: a transcript_ready event for a task id already in the
summarization guard set performs zero streamSummary invocations (hence at
most one) and leaves the bridge state unchanged. -/
theorem transcriptReady_guarded_no_call (data : WSMessage) (outcome : SummaryOutcome)
    (s : BridgeState) (h : getTaskId data ∈ s.summarizingTaskIds) :
    (handleTranscriptReady data outcome s).2 = 0 ∧
    (handleTranscriptReady data outcome s).1 = s := by
  simp [handleTranscriptReady, h]

/-- A redelivered transcript_ready event for task T1. -/
def c2Event : WSMessage :=
  { mtype := some "transcript_ready", taskId := some "T1", transcript := some "hello" }

/-- A bridge state in which T1 is already in the summarization guard set. -/
def c2State : BridgeState :=
  { tasks := [], summarizingTaskIds := ["T1"] }

/-- Witness for C2 at a concrete guarded redelivery. -/
theorem transcriptReady_guarded_no_call_witness :
    (handleTranscriptReady c2Event (SummaryOutcome.success "sum") c2State).2 = 0 ∧
    (handleTranscriptReady c2Event (SummaryOutcome.success "sum") c2State).1 = c2State :=
  transcriptReady_guarded_no_call _ _ _ (by decide)

/-- A pending remote-link task, used by the C4 theorems. -/
def c4Task : Task :=
  { id := "T1", taskType := "url", source := "https://example.com/v",
    status := TaskStatus.pending, progress := 0, message := "等待处理", createdAt := 0 }

/-- Settings with no selected template but a usable template in the list. -/
def c4Settings : SettingsSlice :=
  { templates := [{ id := "study", name := "学习笔记", prompt := "P" }],
    selectedTemplateId := "" }

/-- Counterexample for C4 as stated: with no template selected (the
selected id matches nothing) but a non-empty template list, startProcessing
does not warn — it falls back to the first template and sends the batch. -/
theorem startProcessing_fallback_sends :
    handleStartProcessing [c4Task] c4Settings =
      StartAction.send
        [{ id := "T1", taskType := "url", source := "https://example.com/v",
           title := none, templatePrompt := "P" }] := by
  decide

/-- Claim C4 (amended): when pending tasks exist, no template matches the
selected id, and the fallback first template is absent or has an empty
prompt, startProcessing surfaces the no-template warning and performs no
channel send; startProcessing never mutates the store in any branch, so
every pending task's status stays pending. -/
theorem startProcessing_no_usable_template (tasks : List Task) (settings : SettingsSlice)
    (h0 : tasks.filter (fun t => t.status == TaskStatus.pending) ≠ [])
    (h1 : settings.templates.find? (fun tp => tp.id == settings.selectedTemplateId) = none)
    (h2 : ∀ tp, settings.templates.head? = some tp → tp.prompt = "") :
    handleStartProcessing tasks settings = StartAction.warnNoTemplate := by
  have hne : (tasks.filter (fun t => t.status == TaskStatus.pending)).isEmpty = false := by
    simpa [List.isEmpty_iff] using h0
  unfold handleStartProcessing
  simp only [h1, hne, Bool.false_eq_true, if_false]
  cases h3 : settings.templates.head? with
  | none => simp
  | some tp => simp [h2 tp h3]

/-- Witness for the amended C4: empty template list and a pending task. -/
theorem startProcessing_no_usable_template_witness :
    handleStartProcessing [c4Task] { templates := [], selectedTemplateId := "study" } =
      StartAction.warnNoTemplate :=
  startProcessing_no_usable_template _ _ (by decide) (by decide) (by intro tp h; cases h)

/-- Claim C8, the divergence: disconnect() clears the pending reconnect
timer, but ws.close() queues the socket's close event and the onclose
handler — still attached — schedules a fresh reconnection when that event
is delivered, and its timer then fires and reconnects.  So a reconnection
attempt does occur after disconnect() with no further connect() call from
the user. -/
theorem wsDisconnect_close_event_reconnects :
    (wsDisconnect (wsConnect wsInit)).reconnectTimer = false ∧
    (wsDeliverClose (wsDisconnect (wsConnect wsInit))).reconnectTimer = true ∧
    (wsTimerFire (wsDeliverClose (wsDisconnect (wsConnect wsInit)))).wsOpen = true := by
  decide

/-! Buffer-splitting lemmas: the frame extraction loop is insensitive to how
the byte stream is cut into reads. -/

/-- Concatenation distributes over sJoin. -/
theorem sJoin_append (xs ys : List String) : sJoin (xs ++ ys) = sJoin xs ++ sJoin ys := by
  induction xs with
  | nil => simp [sJoin]
  | cons x xs ih => simp [sJoin, ih, String.append_assoc]

/-- A buffer without a complete frame is returned whole as the remainder. -/
theorem splitFrames_nil (l : List Char) (h : (splitFrames l).1 = []) :
    (splitFrames l).2 = l := by
  induction l using splitFrames.induct with
  | case1 => rfl
  | case2 c => rfl
  | case3 c d rest hcd ih =>
    simp only [splitFrames, if_pos hcd] at h
    simp at h
  | case4 c d rest hcd p hp ih =>
    have hp2 : (splitFrames (d :: rest)).1 = [] := hp
    simp only [splitFrames, if_neg hcd, hp2, ih hp2]
  | case5 c d rest hcd p f fs hp ih =>
    have hp2 : (splitFrames (d :: rest)).1 = f :: fs := hp
    simp only [splitFrames, if_neg hcd, hp2] at h
    simp at h

/-- The remainder left by splitFrames contains no complete frame. -/
theorem splitFrames_rem (l : List Char) :
    splitFrames ((splitFrames l).2) = ([], (splitFrames l).2) := by
  induction l using splitFrames.induct with
  | case1 => rfl
  | case2 c => rfl
  | case3 c d rest hcd ih =>
    simp only [splitFrames, if_pos hcd]
    exact ih
  | case4 c d rest hcd p hp ih =>
    have hp2 : (splitFrames (d :: rest)).1 = [] := hp
    have h2 := splitFrames_nil _ hp2
    simp only [splitFrames, if_neg hcd, hp2, h2]
  | case5 c d rest hcd p f fs hp ih =>
    have hp2 : (splitFrames (d :: rest)).1 = f :: fs := hp
    simp only [splitFrames, if_neg hcd, hp2]
    exact ih

/-- Extending the input extends the frame list: the frames of `a ++ b` are
the frames of `a` followed by the frames formed from the remainder of `a`
glued to `b`. -/
theorem splitFrames_append (a b : List Char) :
    splitFrames (a ++ b) =
      ((splitFrames a).1 ++ (splitFrames ((splitFrames a).2 ++ b)).1,
        (splitFrames ((splitFrames a).2 ++ b)).2) := by
  induction a using splitFrames.induct with
  | case1 => simp [splitFrames]
  | case2 c => simp [splitFrames]
  | case3 c d rest hcd ih =>
    simp only [List.cons_append, splitFrames, if_pos hcd, List.append_eq]
    rw [ih]
  | case4 c d rest hcd p hp ih =>
    have hp2 : (splitFrames (d :: rest)).1 = [] := hp
    have e1 : (splitFrames (c :: d :: rest)).1 = [] := by
      simp only [splitFrames, if_neg hcd, hp2]
    have e2 : (splitFrames (c :: d :: rest)).2 = c :: d :: rest := by
      simp only [splitFrames, if_neg hcd, hp2, splitFrames_nil _ hp2]
    rw [e1, e2]
    simp
  | case5 c d rest hcd p f fs hp ih =>
    have hp2 : (splitFrames (d :: rest)).1 = f :: fs := hp
    have e1 : (splitFrames (c :: d :: rest)).1 = (c :: f) :: fs := by
      simp only [splitFrames, if_neg hcd, hp2]
    have e2 : (splitFrames (c :: d :: rest)).2 = (splitFrames (d :: rest)).2 := by
      simp only [splitFrames, if_neg hcd, hp2]
    rw [e1, e2]
    have e3 : (c :: d :: rest) ++ b = c :: ((d :: rest) ++ b) := rfl
    rw [e3]
    simp only [splitFrames, if_neg hcd, List.append_eq]
    rw [← List.cons_append d rest b, ih, hp2]
    simp

/-- What streamSummary does once the reader reports end of stream, lifted
to an arbitrary loop state: leftover buffer discarded, lenient completion
check on the accumulated summary. -/
def endCheck : StreamStep → StreamResult
  | StreamStep.more _ s c =>
    if jsTrim s = "" then StreamResult.failed "后端未返回摘要内容" c
    else StreamResult.resolved s c false
  | StreamStep.finished s c => StreamResult.resolved s c true
  | StreamStep.failed m c => StreamResult.failed m c

/-- The summary and chunk outputs of processFrames do not depend on the
remainder it carries, and a `more` outcome returns that remainder. -/
theorem processFrames_rem (fs : List (List Char)) (rem : List Char) (s : String)
    (c : List String) :
    processFrames fs rem s c =
      match processFrames fs [] s c with
      | StreamStep.more _ s2 c2 => StreamStep.more rem s2 c2
      | x => x := by
  induction fs generalizing s c with
  | nil => rfl
  | cons f fs ih =>
    simp only [processFrames]
    cases decodeLine f with
    | skip => exact ih s c
    | chunk t => exact ih (s ++ t) (c ++ [t])
    | doneF => rfl
    | errorF m => rfl

/-- Draining a concatenation of frame lists is draining the first list and
continuing with the second from the reached state. -/
theorem processFrames_append (fs gs : List (List Char)) (rem : List Char) (s : String)
    (c : List String) :
    processFrames (fs ++ gs) rem s c =
      match processFrames fs [] s c with
      | StreamStep.more _ s2 c2 => processFrames gs rem s2 c2
      | x => x := by
  induction fs generalizing s c with
  | nil => rfl
  | cons f fs ih =>
    simp only [List.cons_append, processFrames]
    cases decodeLine f with
    | skip => exact ih s c
    | chunk t => exact ih (s ++ t) (c ++ [t])
    | doneF => rfl
    | errorF m => rfl

/-- The inner loop on `a ++ b` is the inner loop on `a` continued on its
leftover buffer glued to `b`. -/
theorem runFrames_append (a b : List Char) (s : String) (c : List String) :
    runFrames (a ++ b) s c =
      match runFrames a s c with
      | StreamStep.more buf2 s2 c2 => runFrames (buf2 ++ b) s2 c2
      | x => x := by
  unfold runFrames
  rw [splitFrames_append a b]
  rw [processFrames_append]
  rw [processFrames_rem (splitFrames a).1 (splitFrames a).2]
  cases processFrames (splitFrames a).1 [] s c with
  | more r s2 c2 => rfl
  | finished s2 c2 => rfl
  | failed m c2 => rfl

/-- A `more` outcome of the inner loop carries exactly the splitFrames
remainder of the buffer it ran on. -/
theorem runFrames_more_buf (x : List Char) (s : String) (c : List String)
    (buf2 : List Char) (s2 : String) (c2 : List String)
    (h : runFrames x s c = StreamStep.more buf2 s2 c2) : buf2 = (splitFrames x).2 := by
  unfold runFrames at h
  rw [processFrames_rem] at h
  cases hx : processFrames (splitFrames x).1 [] s c with
  | more r s3 c3 => rw [hx] at h; exact (StreamStep.more.injEq _ _ _ _ _ _).mp h |>.1.symm
  | finished s3 c3 => rw [hx] at h; cases h
  | failed m c3 => rw [hx] at h; cases h

/-- The outer read loop, started on a buffer holding no complete frame, is
equivalent to one inner-loop pass over the whole remaining byte stream
followed by the end-of-stream check: the reassembly is insensitive to how
the stream is cut into reads. -/
theorem streamLoop_concat (rs : List String) (buf : List Char) (s : String)
    (c : List String) (hbuf : (splitFrames buf).1 = []) :
    streamLoop rs buf s c = endCheck (runFrames (buf ++ (sJoin rs).data) s c) := by
  induction rs generalizing buf s c with
  | nil =>
    show _ = endCheck (runFrames (buf ++ ("" : String).data) s c)
    have : (("" : String)).data = [] := rfl
    rw [this, List.append_nil]
    unfold runFrames
    rw [hbuf]
    simp only [processFrames]
    rfl
  | cons r rs ih =>
    show streamLoop (r :: rs) buf s c = endCheck (runFrames (buf ++ (r ++ sJoin rs).data) s c)
    rw [String.data_append, ← List.append_assoc]
    rw [runFrames_append (buf ++ r.data) (sJoin rs).data s c]
    simp only [streamLoop]
    cases hr : runFrames (buf ++ r.data) s c with
    | more buf2 s2 c2 =>
      have hb2 : buf2 = (splitFrames (buf ++ r.data)).2 := runFrames_more_buf _ _ _ _ _ _ hr
      have hb3 : (splitFrames buf2).1 = [] := by
        rw [hb2]
        have := splitFrames_rem (buf ++ r.data)
        rw [this]
      exact ih buf2 s2 c2 hb3
    | finished s2 c2 => rfl
    | failed m c2 => rfl

/-- streamSummary on any cut of the byte stream equals one inner-loop pass
over the full concatenation followed by the end-of-stream check. -/
theorem streamSummary_concat (reads : List String) :
    streamSummary reads = endCheck (runFrames (sJoin reads).data "" []) := by
  unfold streamSummary
  have h := streamLoop_concat reads [] "" [] (by rfl)
  simpa using h

/-! Correctness of the frame encoding against the modelled decoder. -/

/-- The wire form of a frame line matches the flat SSE payload the backend
emits (sanity check of the jsonPair presentation of frameLine). -/
theorem frameLine_chunk_concrete :
    frameLine (Frame.chunk "A") =
      "data: ".data ++ [lbrace] ++ "\"type\":\"chunk\",\"text\":\"A\"".data ++ [rbrace] := by
  decide

/-- Escaping a character never produces a newline. -/
theorem escChar_no_newline (c : Char) : '\n' ∉ escChar c := by
  intro hmem
  unfold escChar at hmem
  by_cases h1 : c = '"'
  · simp [h1] at hmem
  · by_cases h2 : c = '\\'
    · simp [h1, h2] at hmem
    · by_cases h3 : c = '\n'
      · simp [h1, h2, h3] at hmem
      · by_cases h4 : c = '\t'
        · simp [h1, h2, h3, h4] at hmem
        · by_cases h5 : c = '\r'
          · simp [h1, h2, h3, h4, h5] at hmem
          · simp [h1, h2, h3, h4, h5] at hmem
            exact h3 hmem.symm

/-- Escaping a string never produces a newline. -/
theorem escChars_no_newline (l : List Char) : '\n' ∉ escChars l := by
  intro h
  simp only [escChars, List.mem_flatten, List.mem_map] at h
  obtain ⟨x, ⟨c, _, rfl⟩, hx⟩ := h
  exact escChar_no_newline c hx

/-- A jsonPair member contains no newline when its continuation has none. -/
theorem jsonPair_no_newline (k v rest : List Char) (hr : '\n' ∉ rest) :
    '\n' ∉ jsonPair k v rest := by
  intro h
  simp [jsonPair, List.mem_cons, List.mem_append] at h
  rcases h with h | h | h
  · exact escChars_no_newline k h
  · exact escChars_no_newline v h
  · exact hr h

/-- No frame line contains a newline: the separator cannot occur early. -/
theorem frameLine_no_newline (f : Frame) : '\n' ∉ frameLine f := by
  cases f with
  | chunk t =>
    intro h
    simp only [frameLine, List.mem_append, List.mem_cons] at h
    rcases h with h | h | h
    · simp at h
    · exact absurd h (by decide)
    · refine jsonPair_no_newline _ _ _ ?_ h
      intro h2
      simp only [List.mem_cons] at h2
      rcases h2 with h2 | h2
      · exact absurd h2 (by decide)
      · exact jsonPair_no_newline _ _ _ (by decide) h2
  | done =>
    intro h
    simp only [frameLine, List.mem_append, List.mem_cons] at h
    rcases h with h | h | h
    · simp at h
    · exact absurd h (by decide)
    · exact jsonPair_no_newline _ _ _ (by decide) h
  | error m =>
    intro h
    simp only [frameLine, List.mem_append, List.mem_cons] at h
    rcases h with h | h | h
    · simp at h
    · exact absurd h (by decide)
    · refine jsonPair_no_newline _ _ _ ?_ h
      intro h2
      simp only [List.mem_cons] at h2
      rcases h2 with h2 | h2
      · exact absurd h2 (by decide)
      · exact jsonPair_no_newline _ _ _ (by decide) h2

/-- One unfolding step of splitFrames on a buffer whose first two characters
are not the separator. -/
theorem splitFrames_cons2 (c d : Char) (rest : List Char) (h : ¬(c = '\n' ∧ d = '\n')) :
    splitFrames (c :: d :: rest) =
      (match (splitFrames (d :: rest)).1 with
       | [] => ([], c :: (splitFrames (d :: rest)).2)
       | f :: fs => ((c :: f) :: fs, (splitFrames (d :: rest)).2)) := by
  simp only [splitFrames, if_neg h]

/-- Splitting a buffer that starts with a newline-free line followed by the
separator yields that line as the first frame. -/
theorem splitFrames_frame (l rest : List Char) (hl : '\n' ∉ l) :
    splitFrames (l ++ '\n' :: '\n' :: rest) =
      (l :: (splitFrames rest).1, (splitFrames rest).2) := by
  induction l with
  | nil => simp [splitFrames]
  | cons c l ih =>
    have hc : ¬(c = '\n') := fun h => hl (by simp [h])
    have hl2 : '\n' ∉ l := fun h => hl (by simp [h])
    cases l with
    | nil =>
      have e : splitFrames ('\n' :: '\n' :: rest) =
          ([] :: (splitFrames rest).1, (splitFrames rest).2) := by
        simp [splitFrames]
      rw [show [c] ++ '\n' :: '\n' :: rest = c :: '\n' :: '\n' :: rest from rfl]
      rw [splitFrames_cons2 c '\n' ('\n' :: rest) (by simp [hc])]
      rw [e]
    | cons d l2 =>
      rw [show (c :: d :: l2) ++ '\n' :: '\n' :: rest
          = c :: d :: (l2 ++ '\n' :: '\n' :: rest) from rfl]
      rw [splitFrames_cons2 c d _ (by simp [hc])]
      rw [show d :: (l2 ++ '\n' :: '\n' :: rest) = (d :: l2) ++ '\n' :: '\n' :: rest from rfl]
      rw [ih hl2]

/-- Decoding inverts escaping: the parser consumes an escaped string up to
its closing quote and returns the original characters. -/
theorem parseStringBody_escChars (cs rest : List Char)
    (h : ∀ c ∈ cs, goodChar c = true) :
    parseStringBody (escChars cs ++ '"' :: rest) = some (cs, rest) := by
  induction cs with
  | nil =>
    rw [show escChars [] ++ '"' :: rest = '"' :: rest from rfl]
    rw [parseStringBody.eq_def]
    simp
  | cons c cs ih =>
    have hc : goodChar c = true := h c (by simp)
    have hcs : ∀ x ∈ cs, goodChar x = true := fun x hx => h x (by simp [hx])
    have he : escChars (c :: cs) = escChar c ++ escChars cs := by simp [escChars]
    rw [he, List.append_assoc]
    by_cases h1 : c = '"'
    · subst h1
      rw [show escChar '"' ++ (escChars cs ++ '"' :: rest)
          = '\\' :: '"' :: (escChars cs ++ '"' :: rest) from rfl]
      rw [parseStringBody.eq_def]
      simp [parseEsc, ih hcs]
    · by_cases h2 : c = '\\'
      · subst h2
        rw [show escChar '\\' ++ (escChars cs ++ '"' :: rest)
            = '\\' :: '\\' :: (escChars cs ++ '"' :: rest) from rfl]
        rw [parseStringBody.eq_def]
        simp [parseEsc, ih hcs]
      · by_cases h3 : c = '\n'
        · subst h3
          rw [show escChar '\n' ++ (escChars cs ++ '"' :: rest)
              = '\\' :: 'n' :: (escChars cs ++ '"' :: rest) from rfl]
          rw [parseStringBody.eq_def]
          simp [parseEsc, ih hcs]
        · by_cases h4 : c = '\t'
          · subst h4
            rw [show escChar '\t' ++ (escChars cs ++ '"' :: rest)
                = '\\' :: 't' :: (escChars cs ++ '"' :: rest) from rfl]
            rw [parseStringBody.eq_def]
            simp [parseEsc, ih hcs]
          · by_cases h5 : c = '\r'
            · subst h5
              rw [show escChar '\r' ++ (escChars cs ++ '"' :: rest)
                  = '\\' :: 'r' :: (escChars cs ++ '"' :: rest) from rfl]
              rw [parseStringBody.eq_def]
              simp [parseEsc, ih hcs]
            · have h32 : ¬(c.toNat < 32) := by
                simp [goodChar, h3, h4, h5] at hc
                omega
              have hone : escChar c = [c] := by
                simp [escChar, h1, h2, h3, h4, h5]
              rw [hone, List.singleton_append]
              rw [parseStringBody.eq_def]
              simp [h1, h2, h32, ih hcs]

/-- parseJString on a quoted body. -/
theorem parseJString_cons (rest : List Char) :
    parseJString ('"' :: rest) = parseStringBody rest := by
  rw [parseJString.eq_def]
  simp

/-- Parsing a final `"key":"value"` member (the continuation does not start
with a comma). -/
theorem parsePairsF_last (fuel : Nat) (kc vc rest : List Char)
    (hk : ∀ c ∈ kc, goodChar c = true) (hv : ∀ c ∈ vc, goodChar c = true)
    (hrest : rest.head? ≠ some ',') :
    parsePairsF (fuel + 1) (jsonPair kc vc rest) =
      some ([(String.mk kc, String.mk vc)], rest) := by
  unfold jsonPair
  rw [parsePairsF.eq_def]
  simp only [parseJString_cons]
  rw [parseStringBody_escChars kc _ hk]
  simp only [parseJString_cons]
  rw [parseStringBody_escChars vc _ hv]
  cases rest with
  | nil => simp
  | cons c2 r4 =>
    have hc2 : ¬(c2 = ',') := by
      intro h
      exact hrest (by simp [h])
    simp [hc2]

/-- Parsing a `"key":"value",` member followed by further members. -/
theorem parsePairsF_comma (fuel : Nat) (kc vc rest : List Char)
    (hk : ∀ c ∈ kc, goodChar c = true) (hv : ∀ c ∈ vc, goodChar c = true) :
    parsePairsF (fuel + 1) (jsonPair kc vc (',' :: rest)) =
      match parsePairsF fuel rest with
      | some (ps, r5) => some ((String.mk kc, String.mk vc) :: ps, r5)
      | none => none := by
  unfold jsonPair
  rw [parsePairsF.eq_def]
  simp only [parseJString_cons]
  rw [parseStringBody_escChars kc _ hk]
  simp only [parseJString_cons]
  rw [parseStringBody_escChars vc _ hv]
  simp

/-- parsePairsF_last for any sufficient fuel. -/
theorem parsePairsF_last_ge (fuel : Nat) (hf : 1 ≤ fuel) (kc vc rest : List Char)
    (hk : ∀ c ∈ kc, goodChar c = true) (hv : ∀ c ∈ vc, goodChar c = true)
    (hrest : rest.head? ≠ some ',') :
    parsePairsF fuel (jsonPair kc vc rest) =
      some ([(String.mk kc, String.mk vc)], rest) := by
  obtain ⟨f2, rfl⟩ : ∃ f2, fuel = f2 + 1 := ⟨fuel - 1, by omega⟩
  exact parsePairsF_last f2 kc vc rest hk hv hrest

/-- parsePairsF_comma for any sufficient fuel. -/
theorem parsePairsF_comma_ge (fuel : Nat) (hf : 1 ≤ fuel) (kc vc rest : List Char)
    (hk : ∀ c ∈ kc, goodChar c = true) (hv : ∀ c ∈ vc, goodChar c = true) :
    parsePairsF fuel (jsonPair kc vc (',' :: rest)) =
      match parsePairsF (fuel - 1) rest with
      | some (ps, r5) => some ((String.mk kc, String.mk vc) :: ps, r5)
      | none => none := by
  obtain ⟨f2, rfl⟩ : ∃ f2, fuel = f2 + 1 := ⟨fuel - 1, by omega⟩
  simpa using parsePairsF_comma f2 kc vc rest hk hv

/-- Length of an encoded member. -/
theorem jsonPair_length (k v rest : List Char) :
    (jsonPair k v rest).length =
      (escChars k).length + (escChars v).length + rest.length + 5 := by
  simp [jsonPair]
  omega

/-- One unfolding step of parseData on an object that is not empty. -/
theorem parseData_step (d : Char) (rest2 : List Char) (hd : ¬(d = rbrace)) :
    parseData (lbrace :: d :: rest2) =
      (match parsePairsF (d :: rest2).length (d :: rest2) with
       | some (ps, r) =>
         (match r with
          | [] => none
          | e :: r2 => if e = rbrace ∧ r2 = [] then some ps else none)
       | none => none) := by
  rw [parseData.eq_def]
  simp [hd]

/-- parseData on a one-member object payload. -/
theorem parseData_one (k v : List Char)
    (hk : ∀ c ∈ k, goodChar c = true) (hv : ∀ c ∈ v, goodChar c = true) :
    parseData (lbrace :: jsonPair k v [rbrace]) = some [(String.mk k, String.mk v)] := by
  have hlen : 1 ≤ (jsonPair k v [rbrace]).length := by
    rw [jsonPair_length]
    omega
  have hparse := parsePairsF_last_ge ((jsonPair k v [rbrace]).length) hlen k v [rbrace]
    hk hv (by decide)
  rw [show lbrace :: jsonPair k v [rbrace]
      = lbrace :: '"' :: (escChars k ++ '"' :: ':' :: '"' :: (escChars v ++ '"' :: [rbrace]))
      from rfl]
  rw [parseData_step '"' _ (by decide)]
  rw [show ('"' :: (escChars k ++ '"' :: ':' :: '"' :: (escChars v ++ '"' :: [rbrace])))
      = jsonPair k v [rbrace] from rfl]
  rw [hparse]
  simp

/-- parseData on a two-member object payload. -/
theorem parseData_two (k1 v1 k2 v2 : List Char)
    (hk1 : ∀ c ∈ k1, goodChar c = true) (hv1 : ∀ c ∈ v1, goodChar c = true)
    (hk2 : ∀ c ∈ k2, goodChar c = true) (hv2 : ∀ c ∈ v2, goodChar c = true) :
    parseData (lbrace :: jsonPair k1 v1 (',' :: jsonPair k2 v2 [rbrace])) =
      some [(String.mk k1, String.mk v1), (String.mk k2, String.mk v2)] := by
  have hlen1 : 1 ≤ (jsonPair k1 v1 (',' :: jsonPair k2 v2 [rbrace])).length := by
    rw [jsonPair_length]
    omega
  have hlen2 : 1 ≤ (jsonPair k1 v1 (',' :: jsonPair k2 v2 [rbrace])).length - 1 := by
    simp [jsonPair_length, List.length_cons]
  have hlast := parsePairsF_last_ge
    ((jsonPair k1 v1 (',' :: jsonPair k2 v2 [rbrace])).length - 1) hlen2 k2 v2 [rbrace]
    hk2 hv2 (by decide)
  have hcomma := parsePairsF_comma_ge ((jsonPair k1 v1 (',' :: jsonPair k2 v2 [rbrace])).length)
    hlen1 k1 v1 (jsonPair k2 v2 [rbrace]) hk1 hv1
  rw [hlast] at hcomma
  rw [show lbrace :: jsonPair k1 v1 (',' :: jsonPair k2 v2 [rbrace])
      = lbrace :: '"' :: (escChars k1 ++ '"' :: ':' :: '"' ::
          (escChars v1 ++ '"' :: (',' :: jsonPair k2 v2 [rbrace]))) from rfl]
  rw [parseData_step '"' _ (by decide)]
  rw [show ('"' :: (escChars k1 ++ '"' :: ':' :: '"' ::
      (escChars v1 ++ '"' :: (',' :: jsonPair k2 v2 [rbrace]))))
      = jsonPair k1 v1 (',' :: jsonPair k2 v2 [rbrace]) from rfl]
  rw [hcomma]
  simp

/-- goodString unpacked to its elements. -/
theorem goodString_forall (t : String) (h : goodString t = true) :
    ∀ c ∈ t.data, goodChar c = true := by
  intro c hc
  simp only [goodString, List.all_eq_true] at h
  exact h c hc

/-- Decoding an encoded chunk frame line with non-empty text invokes the
chunk effect with exactly that text. -/
theorem decodeLine_chunk (t : String) (hg : goodString t = true) (hne : ¬(t = "")) :
    decodeLine (frameLine (Frame.chunk t)) = LineEffect.chunk t := by
  have hstrip : stripData (frameLine (Frame.chunk t)) =
      some (lbrace :: jsonPair "type".data "chunk".data
        (',' :: jsonPair "text".data t.data [rbrace])) := rfl
  unfold decodeLine
  rw [hstrip]
  simp only []
  rw [parseData_two "type".data "chunk".data "text".data t.data
    (by decide) (by decide) (by decide) (goodString_forall t hg)]
  rw [show String.mk "type".data = "type" from rfl, show String.mk "chunk".data = "chunk" from rfl,
      show String.mk "text".data = "text" from rfl, show String.mk t.data = t from rfl]
  simp only []
  rw [show getField [("type", "chunk"), ("text", t)] "type" = some "chunk" from rfl]
  rw [show getField [("type", "chunk"), ("text", t)] "text" = some t from rfl]
  simp [hne]

/-- Decoding a chunk frame line with empty text is skipped (the JavaScript
truthiness test `data.text` fails). -/
theorem decodeLine_chunk_empty :
    decodeLine (frameLine (Frame.chunk "")) = LineEffect.skip := by decide

/-- Decoding the encoded done frame line yields the done effect. -/
theorem decodeLine_done : decodeLine (frameLine Frame.done) = LineEffect.doneF := by decide

/-- The byte form of an encoded frame: its line followed by the separator. -/
theorem encodeFrame_data (f : Frame) :
    (encodeFrame f).data = frameLine f ++ ['\n', '\n'] := rfl

/-- Byte form of a concatenation. -/
theorem sJoin_cons_data (r : String) (rs : List String) :
    (sJoin (r :: rs)).data = r.data ++ (sJoin rs).data := by
  show (r ++ sJoin rs).data = _
  rw [String.data_append]

/-- One unfolding step of processFrames. -/
theorem processFrames_cons (f : List Char) (fs : List (List Char)) (rem : List Char)
    (s : String) (c : List String) :
    processFrames (f :: fs) rem s c =
      match decodeLine f with
      | LineEffect.skip => processFrames fs rem s c
      | LineEffect.chunk t => processFrames fs rem (s ++ t) (c ++ [t])
      | LineEffect.doneF => StreamStep.finished s c
      | LineEffect.errorF m => StreamStep.failed m c := by
  rw [processFrames.eq_def]

/-- Splitting a stream of encoded frames followed by arbitrary bytes yields
exactly the frame lines followed by the frames of the remaining bytes. -/
theorem splitFrames_encodeFrames (fs : List Frame) (rest : List Char) :
    splitFrames ((sJoin (fs.map encodeFrame)).data ++ rest) =
      (fs.map frameLine ++ (splitFrames rest).1, (splitFrames rest).2) := by
  induction fs with
  | nil => simp [sJoin]
  | cons f fs ih =>
    rw [List.map_cons, sJoin_cons_data, encodeFrame_data]
    rw [List.append_assoc, List.append_assoc]
    rw [show (['\n', '\n'] : List Char) ++ ((sJoin (fs.map encodeFrame)).data ++ rest)
        = '\n' :: '\n' :: ((sJoin (fs.map encodeFrame)).data ++ rest) from rfl]
    rw [splitFrames_frame _ _ (frameLine_no_newline f)]
    rw [ih]
    simp

/-- Draining the encoded chunk lines accumulates their concatenated texts
and records one onChunk invocation per chunk, in order. -/
theorem processFrames_chunks (ts : List String)
    (h : ∀ t ∈ ts, ¬(t = "") ∧ goodString t = true)
    (gs : List (List Char)) (rem : List Char) (s : String) (c : List String) :
    processFrames ((ts.map fun t => frameLine (Frame.chunk t)) ++ gs) rem s c =
      processFrames gs rem (s ++ sJoin ts) (c ++ ts) := by
  induction ts generalizing s c with
  | nil => simp [sJoin]
  | cons t ts ih =>
    obtain ⟨hne, hg⟩ := h t (by simp)
    have hts : ∀ x ∈ ts, ¬(x = "") ∧ goodString x = true := fun x hx => h x (by simp [hx])
    rw [List.map_cons, List.cons_append, processFrames_cons, decodeLine_chunk t hg hne]
    simp only []
    rw [ih hts (s ++ t) (c ++ [t])]
    rw [show sJoin (t :: ts) = t ++ sJoin ts from rfl]
    rw [← String.append_assoc]
    rw [List.append_assoc]
    rw [show ([t] : List String) ++ ts = t :: ts from rfl]

/-- Claim C3 (amended): for every sequence of chunk frames with non-empty
representable texts followed by a done frame and arbitrary further bytes,
and for every way of cutting that byte stream into reads, streamSummary
fires onChunk once per chunk frame in arrival order (the recorded chunk
list is exactly the text list), resolves at the done frame with the
concatenation of all chunk texts, and ignores everything after the done
frame (it does not wait for stream closure). -/
theorem streamSummary_chunks_done (ts : List String) (tail : String) (reads : List String)
    (hts : ∀ t ∈ ts, ¬(t = "") ∧ goodString t = true)
    (hreads : sJoin reads =
      sJoin (ts.map fun t => encodeFrame (Frame.chunk t)) ++ (encodeFrame Frame.done ++ tail)) :
    streamSummary reads = StreamResult.resolved (sJoin ts) ts true := by
  rw [streamSummary_concat reads, hreads]
  rw [show (ts.map fun t => encodeFrame (Frame.chunk t))
      = (ts.map Frame.chunk).map encodeFrame from by
    rw [List.map_map]
    rfl]
  rw [String.data_append, String.data_append]
  unfold runFrames
  rw [encodeFrame_data Frame.done, List.append_assoc]
  rw [show (['\n', '\n'] : List Char) ++ tail.data = '\n' :: '\n' :: tail.data from rfl]
  rw [splitFrames_encodeFrames (ts.map Frame.chunk) _]
  rw [splitFrames_frame _ _ (frameLine_no_newline Frame.done)]
  simp only []
  rw [List.map_map]
  rw [show ts.map (frameLine ∘ Frame.chunk) = ts.map fun t => frameLine (Frame.chunk t) from rfl]
  rw [processFrames_chunks ts hts]
  rw [processFrames_cons, decodeLine_done]
  simp only []
  have h1 : ("" : String) ++ sJoin ts = sJoin ts := by simp
  have h2 : ([] : List String) ++ ts = ts := by simp
  rw [h1, h2]
  rfl

/-- Claim C6 (amended): if the stream consists of chunk frames and ends
without a done frame, streamSummary fails with the EmptyResponse error when
the accumulated summary is empty or whitespace-only (the code applies
`.trim()` before the check), and otherwise resolves leniently with the
accumulated text. -/
theorem streamSummary_no_done (ts : List String) (reads : List String)
    (hts : ∀ t ∈ ts, ¬(t = "") ∧ goodString t = true)
    (hreads : sJoin reads = sJoin (ts.map fun t => encodeFrame (Frame.chunk t))) :
    streamSummary reads =
      if jsTrim (sJoin ts) = "" then StreamResult.failed "后端未返回摘要内容" ts
      else StreamResult.resolved (sJoin ts) ts false := by
  rw [streamSummary_concat reads, hreads]
  rw [show (ts.map fun t => encodeFrame (Frame.chunk t))
      = (ts.map Frame.chunk).map encodeFrame from by
    rw [List.map_map]
    rfl]
  unfold runFrames
  rw [show ((sJoin ((ts.map Frame.chunk).map encodeFrame)).data)
      = (sJoin ((ts.map Frame.chunk).map encodeFrame)).data ++ [] from (List.append_nil _).symm]
  rw [splitFrames_encodeFrames (ts.map Frame.chunk) []]
  rw [show splitFrames ([] : List Char) = ([], []) from rfl]
  simp only []
  rw [List.map_map]
  rw [show ts.map (frameLine ∘ Frame.chunk) = ts.map fun t => frameLine (Frame.chunk t) from rfl]
  rw [processFrames_chunks ts hts]
  rw [show processFrames [] [] ("" ++ sJoin ts) ([] ++ ts)
      = StreamStep.more [] ("" ++ sJoin ts) ([] ++ ts) from rfl]
  have h1 : ("" : String) ++ sJoin ts = sJoin ts := by simp
  have h2 : ([] : List String) ++ ts = ts := by simp
  rw [h1, h2]
  rfl

/-- Claim C7: a malformed (undecodable) frame at a frame boundary anywhere
in the stream is skipped without aborting streamSummary: every subsequent
well-formed chunk frame is still accumulated and delivered to onChunk, and
the subsequent done frame still resolves the call with the full
concatenation, for every cut of the byte stream into reads. -/
theorem streamSummary_skips_malformed (bad : String) (ts1 ts2 : List String) (tail : String)
    (reads : List String)
    (hb1 : '\n' ∉ bad.data) (hb2 : decodeLine bad.data = LineEffect.skip)
    (hts : ∀ t ∈ ts1 ++ ts2, ¬(t = "") ∧ goodString t = true)
    (hreads : sJoin reads =
      sJoin (ts1.map fun t => encodeFrame (Frame.chunk t)) ++
        ((bad ++ "\n\n") ++
          (sJoin (ts2.map fun t => encodeFrame (Frame.chunk t)) ++
            (encodeFrame Frame.done ++ tail)))) :
    streamSummary reads = StreamResult.resolved (sJoin (ts1 ++ ts2)) (ts1 ++ ts2) true := by
  have hts1 : ∀ t ∈ ts1, ¬(t = "") ∧ goodString t = true := fun t ht =>
    hts t (List.mem_append.mpr (Or.inl ht))
  have hts2 : ∀ t ∈ ts2, ¬(t = "") ∧ goodString t = true := fun t ht =>
    hts t (List.mem_append.mpr (Or.inr ht))
  rw [streamSummary_concat reads, hreads]
  rw [show (ts1.map fun t => encodeFrame (Frame.chunk t))
      = (ts1.map Frame.chunk).map encodeFrame from by
    rw [List.map_map]
    rfl]
  rw [show (ts2.map fun t => encodeFrame (Frame.chunk t))
      = (ts2.map Frame.chunk).map encodeFrame from by
    rw [List.map_map]
    rfl]
  simp only [String.data_append]
  unfold runFrames
  rw [List.append_assoc bad.data]
  rw [show (['\n', '\n'] : List Char) ++
        ((sJoin ((ts2.map Frame.chunk).map encodeFrame)).data ++
          ((encodeFrame Frame.done).data ++ tail.data))
      = '\n' :: '\n' :: ((sJoin ((ts2.map Frame.chunk).map encodeFrame)).data ++
          ((encodeFrame Frame.done).data ++ tail.data)) from rfl]
  rw [encodeFrame_data Frame.done, List.append_assoc (frameLine Frame.done)]
  rw [show (['\n', '\n'] : List Char) ++ tail.data = '\n' :: '\n' :: tail.data from rfl]
  rw [splitFrames_encodeFrames (ts1.map Frame.chunk) _]
  rw [splitFrames_frame bad.data _ hb1]
  rw [splitFrames_encodeFrames (ts2.map Frame.chunk) _]
  rw [splitFrames_frame _ _ (frameLine_no_newline Frame.done)]
  simp only []
  rw [List.map_map, List.map_map]
  rw [show ts1.map (frameLine ∘ Frame.chunk) = ts1.map fun t => frameLine (Frame.chunk t) from rfl]
  rw [show ts2.map (frameLine ∘ Frame.chunk) = ts2.map fun t => frameLine (Frame.chunk t) from rfl]
  rw [processFrames_chunks ts1 hts1]
  rw [processFrames_cons, hb2]
  simp only []
  rw [processFrames_chunks ts2 hts2]
  rw [processFrames_cons, decodeLine_done]
  simp only []
  have h1 : (("" : String) ++ sJoin ts1) ++ sJoin ts2 = sJoin (ts1 ++ ts2) := by
    rw [sJoin_append]
    simp
  have h2 : (([] : List String) ++ ts1) ++ ts2 = ts1 ++ ts2 := by simp
  rw [h1, h2]
  rfl

/-- Counterexample for C3 as stated: a stream containing exactly one chunk
frame (its text empty) and a done frame produces zero onChunk invocations,
not one per chunk frame — the code's `data.text` truthiness check skips
empty-text chunks. -/
theorem streamSummary_empty_chunk_counterexample :
    streamSummary [encodeFrame (Frame.chunk "") ++ encodeFrame Frame.done] =
      StreamResult.resolved "" [] true ∧
    ([Frame.chunk "", Frame.done].countP fun f =>
      match f with
      | Frame.chunk _ => true
      | _ => false) = 1 := by
  decide

/-- Reads for the C3 witness: the spec's A/B/done scenario with the done
frame's bytes split across three reads. -/
def c3Reads : List String :=
  ["data: \x7b\"type\":\"chunk\",\"text\":\"A\"\x7d\n\ndata: \x7b\"type\":\"chunk\",\"text\":\"B\"\x7d\n\ndata: ",
   "\x7b\"type\":",
   "\"done\"\x7d\n\n"]

/-- Witness for the amended C3 on the spec's scenario, with the done frame
delivered in three separate reads. -/
theorem streamSummary_chunks_done_witness :
    streamSummary c3Reads = StreamResult.resolved "AB" ["A", "B"] true := by
  have h := streamSummary_chunks_done ["A", "B"] "" c3Reads (by decide) (by decide)
  exact h.trans (by decide)

/-- Counterexample for C6 as stated: a whitespace-only chunk followed by
end of stream accumulates the non-empty summary " ", yet streamSummary
fails with the EmptyResponse error instead of resolving with " ", because
the code checks `summary.trim()`. -/
theorem streamSummary_whitespace_counterexample :
    streamSummary [encodeFrame (Frame.chunk " ")] =
      StreamResult.failed "后端未返回摘要内容" [" "] ∧ ¬((" " : String) = "") := by
  decide

/-- Witness for the amended C6: a single chunk, no done frame, resolves
leniently with the accumulated text. -/
theorem streamSummary_no_done_witness :
    streamSummary [encodeFrame (Frame.chunk "A")] = StreamResult.resolved "A" ["A"] false := by
  have h := streamSummary_no_done ["A"] [encodeFrame (Frame.chunk "A")] (by decide) (by decide)
  rw [if_neg (by decide)] at h
  exact h.trans (by decide)

/-- Reads for the C7 witness: a malformed frame between two chunk frames. -/
def c7Reads : List String :=
  [encodeFrame (Frame.chunk "A") ++
    ("data: \x7bbroken\n\n" ++ (encodeFrame (Frame.chunk "B") ++ encodeFrame Frame.done))]

/-- Witness for C7: the malformed frame `data: \x7bbroken` is skipped and
both chunks around it are delivered, the done frame still resolving. -/
theorem streamSummary_skips_malformed_witness :
    streamSummary c7Reads = StreamResult.resolved "AB" ["A", "B"] true := by
  have h := streamSummary_skips_malformed "data: \x7bbroken" ["A"] ["B"] "" c7Reads
    (by decide) (by decide) (by decide) (by decide)
  exact h.trans (by decide)

end VideoSummary
